import Mathlib

/-!
Verification of the autogen-dev-framework task orchestration core
(`src/chat.py`, `src/monitor.py`, `src/agents/reviewer.py`,
`src/agents/tester.py`).

The Python code is shallowly embedded: pure string processing becomes
functions on `List Char` / `String`, the mutable `PerformanceMonitor`
becomes explicit state passing, and the external collaborators of
`DevelopmentChat._plan_and_execute` (the dialogue runtime, the file
system, the tester / reviewer / debugger agents) become an explicit
environment record whose fields return `Except String _` — `.error e`
models a raised Python exception whose `str` is `e`.

Python floats (`success_count / task_count * 100`) are modelled as `ℚ`;
wall-clock values (`uptime`, `timestamp`) and process introspection
(`get_system_metrics`, stack traces) are outside the embedding and are
omitted from the metrics snapshot.
-/

namespace AutogenDev

/-! ## Code Extractor (`DevelopmentChat._extract_code_from_message`, chat.py 64-76) -/

/-- ASCII whitespace stripped by Python `str.strip()`:
space, tab, newline, carriage return, vertical tab, form feed. -/
def pySpace (c : Char) : Bool :=
  c = ' ' || c = '\t' || c = '\n' || c = '\r' || c = Char.ofNat 11 || c = Char.ofNat 12

/-- Python `str.strip()` on a character list: drop leading and trailing
whitespace. -/
def stripChars (l : List Char) : List Char :=
  (l.dropWhile pySpace).rdropWhile pySpace

/-- Python `code.replace('\\n', '\n')`: scan left to right, replacing each
two-character sequence backslash-`n` by a newline (non-overlapping). -/
def replaceEsc : List Char → List Char
  | [] => []
  | [c] => [c]
  | c :: d :: rest =>
    if c = '\\' ∧ d = 'n' then '\n' :: replaceEsc rest
    else c :: replaceEsc (d :: rest)

/-- `pat` occurs as a contiguous substring of `l`
(Python `pat in s` for strings). -/
def containsPat (pat : List Char) : List Char → Bool
  | [] => pat.isPrefixOf []
  | c :: rest => pat.isPrefixOf (c :: rest) || containsPat pat rest

/-- Python `needle in hay` on strings. -/
def containsStr (needle hay : String) : Bool :=
  containsPat needle.data hay.data

/-- Split `l` at the first occurrence of `pat`: returns the part before the
occurrence and the part after it.  `none` when `pat` does not occur. -/
def firstSplit (pat : List Char) : List Char → Option (List Char × List Char)
  | [] => if pat.isPrefixOf [] then some ([], []) else none
  | c :: rest =>
    if pat.isPrefixOf (c :: rest) then some ([], (c :: rest).drop pat.length)
    else
      match firstSplit pat rest with
      | some (pre, post) => some (c :: pre, post)
      | none => none

/-- The opening fence of the regex `r'```python\n(.*?)\n```'`. -/
def openFence : List Char := "```python\n".data

/-- The closing fence of the regex `r'```python\n(.*?)\n```'`. -/
def closeFence : List Char := "\n```".data

/-- The backtick character (written via its code point). -/
def btChar : Char := Char.ofNat 96

/-- `DevelopmentChat._extract_code_from_message` (chat.py 64-76):
`re.search(r'```python\n(.*?)\n```', message, re.DOTALL)` finds the first
opening fence followed by a closing fence and takes the shortest group
(the text up to the first closing fence after the opening); `""` when the
regex does not match; then `replace('\\n', '\n')` and `strip()`. -/
def extract_code_from_message (message : String) : String :=
  match firstSplit openFence message.data with
  | none => ""
  | some (_, rest) =>
    match firstSplit closeFence rest with
    | none => ""
    | some (content, _) => String.mk (stripChars (replaceEsc content))

/-- Wrap a code string back into the fence markers recognized by the
extractor. -/
def wrapFence (code : String) : String :=
  "```python\n" ++ code ++ "\n```"

/-! ## Reviewer suggestion extraction (`ReviewAgent._extract_suggestions`,
reviewer.py 136-149) -/

/-- The fixed suggestion-indicating keywords of
`ReviewAgent._extract_suggestions`. -/
def suggestionKeywords : List String :=
  ["suggest", "consider", "recommend", "could", "should", "might"]

/-- Python `str.lower()` restricted to ASCII (all keywords are ASCII). -/
def lowerStr (s : String) : String :=
  String.mk (s.data.map Char.toLower)

/-- Python `str.strip()` on strings. -/
def pyStrip (s : String) : String :=
  String.mk (stripChars s.data)

/-- Python `review.split('\n')` on a character list: split at every
newline, keeping empty pieces (`"".split('\n') == ['']`). -/
def splitLines : List Char → List (List Char)
  | [] => [[]]
  | c :: rest =>
    if c = '\n' then [] :: splitLines rest
    else
      match splitLines rest with
      | l :: ls => (c :: l) :: ls
      | [] => [[c]]

/-- The test a (stripped) line must pass to be collected as a suggestion:
some keyword is a substring of its lowercase form. -/
def isSuggestionLine (line : String) : Bool :=
  suggestionKeywords.any fun p => containsStr p (lowerStr line)

/-- `ReviewAgent._extract_suggestions` (reviewer.py 136-149): walk the
lines of the response in order; strip each line; append the stripped line
to the accumulator when any keyword occurs (case-insensitively) in it. -/
def extract_suggestions (review : String) : List String :=
  (splitLines review.data).foldl
    (fun suggestions line =>
      let line := String.mk (stripChars line)
      if isSuggestionLine line then suggestions ++ [line] else suggestions)
    []

/-! ## Metrics Recorder (`PerformanceMonitor`, monitor.py 27-76) -/

/-- A value stored in the monitor's free-form `metrics` dict
(task strings, durations, ...). -/
inductive MetricValue where
  | str (s : String)
  | num (q : ℚ)
deriving DecidableEq

/-- The counter / dict state of `PerformanceMonitor` (monitor.py 30-35).
`start_time` is wall clock and is omitted. -/
structure PerformanceMonitor where
  task_count : Nat
  success_count : Nat
  failure_count : Nat
  metrics : List (String × MetricValue)
deriving DecidableEq

/-- `PerformanceMonitor.__init__`: all counters zero, empty dict. -/
def PerformanceMonitor.init : PerformanceMonitor :=
  { task_count := 0, success_count := 0, failure_count := 0, metrics := [] }

/-- Python dict assignment `d[name] = value`: replace the existing binding
or append a new one. -/
def setKey (m : List (String × MetricValue)) (name : String) (v : MetricValue) :
    List (String × MetricValue) :=
  match m with
  | [] => [(name, v)]
  | (k, w) :: rest => if k = name then (k, v) :: rest else (k, w) :: setKey rest name v

/-- `PerformanceMonitor.record_metric` (monitor.py 66-68). -/
def PerformanceMonitor.record_metric (m : PerformanceMonitor) (name : String)
    (v : MetricValue) : PerformanceMonitor :=
  { m with metrics := setKey m.metrics name v }

/-- `PerformanceMonitor.record_task_result` (monitor.py 70-76). -/
def PerformanceMonitor.record_task_result (m : PerformanceMonitor) (success : Bool) :
    PerformanceMonitor :=
  { m with
    task_count := m.task_count + 1
    success_count := if success then m.success_count + 1 else m.success_count
    failure_count := if success then m.failure_count else m.failure_count + 1 }

/-- The `success_rate` computed inside `get_metrics` (monitor.py 60):
`(success_count / task_count * 100) if task_count > 0 else 0`. -/
def PerformanceMonitor.success_rate (m : PerformanceMonitor) : ℚ :=
  if 0 < m.task_count then (m.success_count : ℚ) / (m.task_count : ℚ) * 100 else 0

/-- The snapshot fields of `get_metrics` (monitor.py 52-64) that the
embedding tracks; `uptime`, `timestamp` and the `system` sub-dict are
wall-clock / process introspection and are omitted. -/
structure MetricsSnapshot where
  total_tasks : Nat
  success_rate : ℚ
deriving DecidableEq

/-- `PerformanceMonitor.get_metrics` (monitor.py 52-64), as the snapshot
of the tracked fields. -/
def PerformanceMonitor.get_metrics (m : PerformanceMonitor) : MetricsSnapshot :=
  { total_tasks := m.task_count, success_rate := m.success_rate }

/-- One mutating call on the monitor, for stating invariants over
arbitrary call sequences. -/
inductive MonitorOp where
  | taskResult (success : Bool)
  | metric (name : String) (value : MetricValue)

/-- Apply a sequence of monitor calls in order. -/
def applyOps : List MonitorOp → PerformanceMonitor → PerformanceMonitor
  | [], m => m
  | .taskResult s :: ops, m => applyOps ops (m.record_task_result s)
  | .metric n v :: ops, m => applyOps ops (m.record_metric n v)

/-- Apply a sequence of `record_task_result` calls in order. -/
def applyResults : List Bool → PerformanceMonitor → PerformanceMonitor
  | [], m => m
  | b :: l, m => applyResults l (m.record_task_result b)

/-- Rounding to one decimal place (for the spec's "66.7%"). -/
def round1 (q : ℚ) : ℚ :=
  (round (q * 10) : ℤ) / 10

/-! ## Task Orchestrator (`DevelopmentChat._plan_and_execute`, chat.py 144-220) -/

/-- One entry of `result.chat_history`; only `.get('content', '')` is
consulted, so a message is its optional `content` field. -/
structure Message where
  content : Option String
deriving DecidableEq

/-- One plain file of the working directory, as seen by
`Path("coding").glob("*.py")` / `p.stat().st_mtime`.  Timestamps are
modelled as naturals. -/
structure FileEntry where
  name : String
  mtime : Nat
deriving DecidableEq

/-- The dict returned by `TestingAgent.create_test_file` (tester.py
41-82): `{'success': True, 'test_file': ...}` or
`{'success': False, 'error': ...}`.  `none` models an absent key. -/
structure CreateResult where
  success : Bool
  test_file : Option String
  error : Option String
deriving DecidableEq

/-- The dict returned by `TestingAgent.run_tests` (tester.py 85-108):
`{'success', 'exit_code', 'test_file'}` or `{'success': False, 'error'}`. -/
structure RunResult where
  success : Bool
  exit_code : Option Int
  test_file : Option String
  error : Option String
deriving DecidableEq

/-- The dict returned by `ReviewAgent.review_code` (reviewer.py 65-134);
only the fields the orchestrator stores are tracked. -/
structure ReviewRes where
  success : Bool
  review : Option String
  suggestions : Option (List String)
  error : Option String
deriving DecidableEq

/-- The `test_results` dict built by `DevelopmentChat._run_tests` and
possibly extended with `debug_analysis` (chat.py 115-131, 190-196).
`debug_analysis = none` means the key is absent;
`debug_analysis = some v` means the key is present with value `v`
(itself optional, since `debug_results.get('analysis')` can be `None`). -/
structure TestRes where
  success : Bool
  exit_code : Option Int
  test_file : Option String
  error : Option String
  debug_analysis : Option (Option String)
deriving DecidableEq

/-- The dict returned by `DebuggingAgent.analyze_error`
(used at chat.py 89-93): a `success` flag and an optional `analysis` key. -/
structure DebugResult where
  success : Bool
  analysis : Option String
deriving DecidableEq

/-- The dict returned by `DevelopmentChat._handle_error` (chat.py 78-113):
`{'status': 'debug', 'analysis', 'error', ...}` or
`{'status': 'failed', 'error'}` (no `analysis` key). -/
structure HandleRes where
  status : String
  analysis : Option String
  error : String
deriving DecidableEq

/-- The dict returned by `_plan_and_execute` (chat.py 201-207 / 215-220).
Outer `Option` on `results` / `test_results` / `review_results` /
`debug_analysis` distinguishes an absent key (`none`, as in the failure
branch) from a present key whose value may itself be `None`. -/
structure OutcomeRecord where
  status : String
  results : Option (Option String)
  error : Option String
  test_results : Option (Option TestRes)
  review_results : Option (Option ReviewRes)
  debug_analysis : Option (Option String)
  metrics : MetricsSnapshot
deriving DecidableEq

/-- The external collaborators of one `_plan_and_execute` invocation.
Each field gives the behaviour of one dispatch: `.error e` models the
call raising an exception with `str(e) = e`. -/
structure Env where
  /-- `user_proxy.initiate_chat(...)` (chat.py 152-156): raises, or
  returns an object whose `chat_history` attribute (when present) is the
  transcript. -/
  chat : Except String (Option (List Message))
  /-- The working directory `"coding"`: `none` when `os.path.exists`
  is false, otherwise its (non-recursive) plain-file listing. -/
  codingDir : Option (List FileEntry)
  /-- `open(latest_file, 'w').write(code)` (chat.py 178-179),
  as a function of file name and code. -/
  write : String → String → Except String Unit
  /-- `self.tester.create_test_file(code, filename)` (chat.py 119). -/
  createTest : String → String → Except String CreateResult
  /-- `self.tester.run_tests(test_file)` (chat.py 124). -/
  runTests : String → Except String RunResult
  /-- `self.reviewer.review_code(code, context)` (chat.py 136),
  as a function of code, task and filename. -/
  review : String → String → String → Except String ReviewRes
  /-- `self.debugger.analyze_error(error_message, ...)` (chat.py 89-93),
  as a function of the error message. -/
  debug : String → Except String DebugResult

/-- `DevelopmentChat._handle_error` (chat.py 78-113): dispatch the
debugger on the error message; on debugger success with an `analysis` key
return a `debug` dict carrying the analysis; on debugger non-success
return a `failed` dict with the original message; when the debug dispatch
itself raises, the caught exception's message becomes the `error`.
(The stack-trace formatting of lines 83-86 is runtime introspection and
is omitted; the `KeyError` path for a missing `analysis` key is modelled
with the literal Python rendering of `str(KeyError('analysis'))`.) -/
def handle_error (env : Env) (errorMessage : String) : HandleRes :=
  match env.debug errorMessage with
  | .error e => { status := "failed", analysis := none, error := e }
  | .ok d =>
    if d.success then
      match d.analysis with
      | some a => { status := "debug", analysis := some a, error := errorMessage }
      | none => { status := "failed", analysis := none, error := "'analysis'" }
    else { status := "failed", analysis := none, error := errorMessage }

/-- `DevelopmentChat._run_tests` (chat.py 115-131): create the test file
(returning the create-result dict unchanged when it reports failure, and
turning a raised exception into `{'success': False, 'error': str(e)}`),
then run the tests. -/
def run_tests_step (env : Env) (code filename : String) : TestRes :=
  match env.createTest code filename with
  | .error e =>
    { success := false, exit_code := none, test_file := none, error := some e,
      debug_analysis := none }
  | .ok cr =>
    if cr.success then
      match cr.test_file with
      | none =>
        -- `test_result['test_file']` raises KeyError, caught at chat.py 126
        { success := false, exit_code := none, test_file := none,
          error := some "'test_file'", debug_analysis := none }
      | some tf =>
        match env.runTests tf with
        | .error e =>
          { success := false, exit_code := none, test_file := none, error := some e,
            debug_analysis := none }
        | .ok rr =>
          { success := rr.success, exit_code := rr.exit_code,
            test_file := rr.test_file, error := rr.error, debug_analysis := none }
    else
      { success := cr.success, exit_code := none, test_file := cr.test_file,
        error := cr.error, debug_analysis := none }

/-- `DevelopmentChat._review_code` (chat.py 133-142): dispatch the
reviewer, turning a raised exception into
`{'success': False, 'error': str(e)}`. -/
def review_code_step (env : Env) (code task filename : String) : ReviewRes :=
  match env.review code task filename with
  | .error e => { success := false, review := none, suggestions := none, error := some e }
  | .ok r => r

/-- chat.py 159-161: the last message of the transcript, or `none` when
the result has no (non-empty) `chat_history`. -/
def lastMessageOf (histOpt : Option (List Message)) : Option String :=
  match histOpt with
  | none => none
  | some hist =>
    match hist.getLast? with
    | none => none
    | some msg => some (msg.content.getD "")

/-- chat.py 164: `success = last_message and "TERMINATE" in last_message`,
as the truthiness of that Python expression (both `None` and `""` are
falsy, and `""` contains no `TERMINATE`). -/
def successOf (lastMessage : Option String) : Bool :=
  match lastMessage with
  | none => false
  | some m => !(m == "") && containsStr "TERMINATE" m

/-- `Path("coding").glob("*.py")` filename filter (fnmatch `*.py`). -/
def pyGlobMatch (name : String) : Bool :=
  (".py".data).isSuffixOf name.data

/-- The extension-matching entries of a directory listing (chat.py 171). -/
def pyFiles (entries : List FileEntry) : List FileEntry :=
  entries.filter fun f => pyGlobMatch f.name

/-- Python `max(files, key=lambda p: p.stat().st_mtime)` (chat.py 173):
first maximal element under the key; `none` on an empty list (guarded by
`if files:` in the source). -/
def maxByMtime (files : List FileEntry) : Option FileEntry :=
  match files with
  | [] => none
  | f :: fs => some (fs.foldl (fun acc g => if g.mtime > acc.mtime then g else acc) f)

/-- The Artifact Selector (chat.py 169-173): `none` when the working
directory does not exist or holds no matching file, otherwise the
most-recently-modified matching file. -/
def selectArtifact (dir : Option (List FileEntry)) : Option FileEntry :=
  match dir with
  | none => none
  | some entries => maxByMtime (pyFiles entries)

/-- chat.py 166-196: the `if success and os.path.exists("coding")` block.
Produces `test_results` and `review_results`; the only call in it that can
raise out of the block is the artifact write (all agent dispatches are
wrapped by `_run_tests` / `_review_code` / `_handle_error`). -/
def innerBlock (env : Env) (task : String) (success : Bool)
    (lastMessage : Option String) : Except String (Option TestRes × Option ReviewRes) :=
  if success && env.codingDir.isSome then
    match selectArtifact env.codingDir with
    | none => .ok (none, none)
    | some latest =>
      let code := extract_code_from_message (lastMessage.getD "")
      if code ≠ "" then
        match env.write latest.name code with
        | .error e => .error e
        | .ok _ =>
          let tr := run_tests_step env code latest.name
          let rr := review_code_step env code task latest.name
          let tr :=
            if !tr.success then
              let dbg := handle_error env (tr.error.getD "Test failure")
              { tr with debug_analysis := some dbg.analysis }
            else tr
          .ok (some tr, some rr)
      else .ok (none, none)
  else .ok (none, none)

/-- The body of the `try` block of `_plan_and_execute` (chat.py 147-196)
up to the result dict: `.error e` when an exception with message `e`
escapes the orchestration steps. -/
def planAttempt (env : Env) (task : String) :
    Except String (Option String × Bool × Option TestRes × Option ReviewRes) :=
  match env.chat with
  | .error e => .error e
  | .ok histOpt =>
    let lastMessage := lastMessageOf histOpt
    let success := successOf lastMessage
    match innerBlock env task success lastMessage with
    | .error e => .error e
    | .ok (tr, rr) => .ok (lastMessage, success, tr, rr)

/-- `DevelopmentChat._plan_and_execute` (chat.py 144-220), returning the
outcome record together with the monitor state after the call.
On a normal attempt: record the task result and return a
`completed`/`ongoing` record (chat.py 199-207).  On an escaped exception:
dispatch `_handle_error`, record a failure, and return a `failed` record
carrying the original message and a `debug_analysis` key (chat.py
209-220).  (`record_metric('last_task', ...)` at line 149 and
`record_task_result` at line 199 sit inside the `try` but cannot raise.) -/
def plan_and_execute (env : Env) (mon0 : PerformanceMonitor) (task : String) :
    OutcomeRecord × PerformanceMonitor :=
  let mon1 := mon0.record_metric "last_task" (MetricValue.str task)
  match planAttempt env task with
  | .ok (lastMessage, success, tr, rr) =>
    let mon2 := mon1.record_task_result success
    ({ status := if success then "completed" else "ongoing",
       results := some lastMessage,
       error := none,
       test_results := some tr,
       review_results := some rr,
       debug_analysis := none,
       metrics := mon2.get_metrics }, mon2)
  | .error e =>
    let dbg := handle_error env e
    let mon2 := mon1.record_task_result false
    ({ status := "failed",
       results := none,
       error := some e,
       test_results := none,
       review_results := none,
       debug_analysis := some dbg.analysis,
       metrics := mon2.get_metrics }, mon2)

/-! ## Helper lemmas: substring search -/

lemma isPrefixOf_append_self (l t : List Char) : l.isPrefixOf (l ++ t) = true := by
  induction l with
  | nil => simp [List.isPrefixOf]
  | cons a as ih => simp [List.isPrefixOf, ih]

lemma isPrefixOf_append_of_length_le (pat l t : List Char) (h : pat.length ≤ l.length) :
    pat.isPrefixOf (l ++ t) = pat.isPrefixOf l := by
  induction pat generalizing l with
  | nil => simp [List.isPrefixOf]
  | cons a as ih =>
    cases l with
    | nil => simp at h
    | cons b bs =>
      simp only [List.cons_append, List.isPrefixOf, List.append_eq]
      rw [ih bs (by simpa using h)]

lemma firstSplit_append_self (pat t : List Char) :
    firstSplit pat (pat ++ t) = some ([], t) := by
  cases pat with
  | nil =>
    cases t with
    | nil => rfl
    | cons c rest => simp [firstSplit, List.isPrefixOf]
  | cons a as =>
    simp [firstSplit, isPrefixOf_append_self, List.drop_left]

lemma firstSplit_eq_none_iff (pat l : List Char) :
    firstSplit pat l = none ↔ containsPat pat l = false := by
  induction l with
  | nil =>
    simp only [firstSplit, containsPat]
    constructor
    · intro h
      by_contra hc
      simp only [Bool.not_eq_false] at hc
      simp [hc] at h
    · intro h
      simp [h]
  | cons c rest ih =>
    simp only [firstSplit, containsPat]
    by_cases hp : pat.isPrefixOf (c :: rest) = true
    · simp [hp]
    · simp only [Bool.not_eq_true] at hp
      simp only [hp, if_neg, Bool.false_or]
      cases h : firstSplit pat rest with
      | none => simp [ih.mp h]
      | some pr =>
        have : containsPat pat rest = true := by
          by_contra hc
          simp only [Bool.not_eq_true] at hc
          rw [ih.mpr hc] at h
          exact Option.noConfusion h
        simp [h, this]

lemma containsPat_cons_pat_append (a : Char) (p l t : List Char)
    (hl : ∀ ch ∈ l, ch ≠ a) :
    containsPat (a :: p) (l ++ t) = containsPat (a :: p) t := by
  induction l with
  | nil => rfl
  | cons c rest ih =>
    have hca : (a == c) = false := by
      simp only [beq_eq_false_iff_ne, ne_eq]
      exact fun h => hl c (List.mem_cons_self c rest) h.symm
    simp only [List.cons_append, containsPat, List.isPrefixOf, hca, Bool.false_and,
      Bool.false_or]
    exact ih fun ch hch => hl ch (List.mem_cons_of_mem _ hch)

lemma firstSplit_cons_pat_append (a : Char) (p pre t : List Char)
    (hp : ∀ ch ∈ pre, ch ≠ a) :
    firstSplit (a :: p) (pre ++ ((a :: p) ++ t)) = some (pre, t) := by
  induction pre with
  | nil => simpa using firstSplit_append_self (a :: p) t
  | cons c rest ih =>
    have hca : (a == c) = false := by
      simp only [beq_eq_false_iff_ne, ne_eq]
      exact fun h => hp c (List.mem_cons_self c rest) h.symm
    have hrest := ih fun ch hch => hp ch (List.mem_cons_of_mem _ hch)
    simp only [List.cons_append, List.append_eq, List.append_assoc] at hrest ⊢
    simp only [firstSplit, List.isPrefixOf, hca, Bool.false_and,
      if_neg (Bool.false_ne_true), hrest]

lemma closeFence_eq : closeFence = '\n' :: btChar :: btChar :: btChar :: [] := by decide

/-- `"\n```"` cannot begin inside a short block followed by a literal
`"\n```"`: no proper self-overlap. -/
lemma closeFence_no_crossing (l post : List Char)
    (hshort : closeFence.isPrefixOf l = false) (hne : l ≠ []) :
    closeFence.isPrefixOf (l ++ (closeFence ++ post)) = false := by
  match l with
  | [] => exact absurd rfl hne
  | [a] =>
    rw [closeFence_eq]
    simp only [List.cons_append, List.nil_append, List.isPrefixOf]
    simp [show (btChar == '\n') = false by decide]
  | [a, b] =>
    rw [closeFence_eq]
    simp only [List.cons_append, List.nil_append, List.isPrefixOf]
    simp [show (btChar == '\n') = false by decide]
  | [a, b, c] =>
    rw [closeFence_eq]
    simp only [List.cons_append, List.nil_append, List.isPrefixOf]
    simp [show (btChar == '\n') = false by decide]
  | a :: b :: c :: d :: rest =>
    have hlen : closeFence.length ≤ (a :: b :: c :: d :: rest).length := by
      rw [closeFence_eq]
      simp only [List.length_cons, List.length_nil]
      omega
    rw [isPrefixOf_append_of_length_le _ _ _ hlen]
    exact hshort

/-- Splitting at the closing fence finds exactly the appended occurrence
when the part before it contains none. -/
lemma firstSplit_closeFence_append (c post : List Char)
    (hc : containsPat closeFence c = false) :
    firstSplit closeFence (c ++ (closeFence ++ post)) = some (c, post) := by
  induction c with
  | nil => simpa using firstSplit_append_self closeFence post
  | cons a rest ih =>
    rw [containsPat] at hc
    have h1 : closeFence.isPrefixOf (a :: rest) = false := by
      cases h : closeFence.isPrefixOf (a :: rest) with
      | false => rfl
      | true => rw [h] at hc; simp at hc
    have h2 : containsPat closeFence rest = false := by
      cases h : containsPat closeFence rest with
      | false => rfl
      | true => rw [h] at hc; simp at hc
    have hcross : closeFence.isPrefixOf ((a :: rest) ++ (closeFence ++ post)) = false :=
      closeFence_no_crossing (a :: rest) post h1 (List.cons_ne_nil a rest)
    have hrest := ih h2
    rw [List.cons_append]
    rw [List.cons_append] at hcross
    simp only [firstSplit, hcross, if_neg (Bool.false_ne_true), hrest]

lemma containsPat_iff_found (pat l : List Char) :
    containsPat pat l = true ↔ pat <:+: l := by
  induction l with
  | nil =>
    simp only [containsPat, List.infix_nil]
    constructor
    · intro h
      cases pat with
      | nil => rfl
      | cons a as => simp [List.isPrefixOf] at h
    · intro h
      subst h
      simp [List.isPrefixOf]
  | cons c rest ih =>
    simp only [containsPat, Bool.or_eq_true, List.isPrefixOf_iff_prefix, ih,
      List.infix_cons_iff]

/-! ## Helper lemmas: `strip` and the escape replacement -/

lemma stripChars_idem (l : List Char) : stripChars (stripChars l) = stripChars l := by
  unfold stripChars
  have hinner :
      (((l.dropWhile pySpace).rdropWhile pySpace).dropWhile pySpace) =
        (l.dropWhile pySpace).rdropWhile pySpace := by
    rw [List.dropWhile_eq_self_iff]
    intro hl hp
    have hpre := List.rdropWhile_prefix pySpace (l.dropWhile pySpace)
    have hlen : 0 < (l.dropWhile pySpace).length :=
      lt_of_lt_of_le hl hpre.length_le
    have hget := hpre.getElem hl
    have hnot := List.dropWhile_get_zero_not pySpace l hlen
    rw [List.get_eq_getElem] at hp hnot
    rw [hget] at hp
    exact hnot hp
  rw [hinner, List.rdropWhile_idempotent]

lemma stripChars_within (l : List Char) : stripChars l <:+: l := by
  have h1 : stripChars l <+: l.dropWhile pySpace := List.rdropWhile_prefix _ _
  have h2 : l.dropWhile pySpace <:+ l := List.dropWhile_suffix _
  exact h1.isInfix.trans h2.isInfix

lemma bsnPat_head : ("\\n".data) = '\\' :: 'n' :: [] := by decide

lemma replaceEsc_cons_head (d : Char) (r : List Char) :
    ∃ z tl, replaceEsc (d :: r) = z :: tl ∧ (z = d ∨ z = '\n') := by
  cases r with
  | nil => exact ⟨d, [], rfl, Or.inl rfl⟩
  | cons e r' =>
    by_cases h : d = '\\' ∧ e = 'n'
    · exact ⟨'\n', replaceEsc r', by rw [replaceEsc, if_pos h], Or.inr rfl⟩
    · exact ⟨d, replaceEsc (e :: r'), by rw [replaceEsc, if_neg h], Or.inl rfl⟩

lemma containsPat_bsn_cons (c : Char) (tl : List Char)
    (hhead : ("\\n".data).isPrefixOf (c :: tl) = false)
    (htl : containsPat ("\\n".data) tl = false) :
    containsPat ("\\n".data) (c :: tl) = false := by
  rw [containsPat, hhead, htl]
  rfl

lemma replaceEsc_no_escape (l : List Char) :
    containsPat ("\\n".data) (replaceEsc l) = false := by
  induction l using replaceEsc.induct with
  | case1 => rw [replaceEsc]; decide
  | case2 c =>
    rw [replaceEsc, bsnPat_head]
    simp [containsPat, List.isPrefixOf]
  | case3 c d rest h ih =>
    rw [replaceEsc, if_pos h]
    refine containsPat_bsn_cons _ _ ?_ ih
    rw [bsnPat_head]
    simp [List.isPrefixOf, show ('\\' == '\n') = false by decide]
  | case4 c d rest h ih =>
    rw [replaceEsc, if_neg h]
    obtain ⟨z, tl, hz, hzor⟩ := replaceEsc_cons_head d rest
    rw [hz]
    rw [hz] at ih
    refine containsPat_bsn_cons _ _ ?_ ih
    rw [bsnPat_head]
    by_cases hc : c = '\\'
    · have hzn : ('n' == z) = false := by
        rw [beq_eq_false_iff_ne]
        rcases hzor with h1 | h1
        · rw [h1]
          exact fun hh => h ⟨hc, hh.symm⟩
        · rw [h1]
          decide
      simp [List.isPrefixOf, hzn]
    · have hcb : ('\\' == c) = false := by
        rw [beq_eq_false_iff_ne]
        exact fun hh => hc hh.symm
      simp [List.isPrefixOf, hcb]

lemma replaceEsc_eq_self (l : List Char)
    (h : containsPat ("\\n".data) l = false) : replaceEsc l = l := by
  induction l using replaceEsc.induct with
  | case1 => rfl
  | case2 c => rfl
  | case3 c d rest hcd ih =>
    exfalso
    obtain ⟨hc, hd⟩ := hcd
    subst hc hd
    rw [containsPat, bsnPat_head] at h
    simp [List.isPrefixOf] at h
  | case4 c d rest hcd ih =>
    rw [replaceEsc, if_neg hcd]
    congr 1
    apply ih
    rw [containsPat] at h
    cases hrest : containsPat ("\\n".data) (d :: rest) with
    | false => rfl
    | true => rw [hrest] at h; simp at h

/-! ## Helper lemmas: the extractor as a whole -/

lemma extract_empty_of_no_openFence (s : String)
    (h : containsPat openFence s.data = false) :
    extract_code_from_message s = "" := by
  rw [extract_code_from_message, (firstSplit_eq_none_iff _ _).mpr h]

lemma extract_shape (msg : String) :
    extract_code_from_message msg = "" ∨
      ∃ content, extract_code_from_message msg =
        String.mk (stripChars (replaceEsc content)) := by
  rcases hfs : firstSplit openFence msg.data with _ | ⟨pre, rest⟩
  · exact Or.inl (by simp only [extract_code_from_message, hfs])
  · rcases hcs : firstSplit closeFence rest with _ | ⟨content, post⟩
    · exact Or.inl (by simp only [extract_code_from_message, hfs, hcs])
    · exact Or.inr ⟨content, by simp only [extract_code_from_message, hfs, hcs]⟩

lemma extract_wrap (c : String) (h : containsPat closeFence c.data = false) :
    extract_code_from_message (wrapFence c) =
      String.mk (stripChars (replaceEsc c.data)) := by
  have hdata : (wrapFence c).data = openFence ++ (c.data ++ (closeFence ++ [])) := by
    simp only [wrapFence, String.data_append, List.append_assoc, List.append_nil]
    rfl
  have h1 : firstSplit openFence (wrapFence c).data
      = some ([], c.data ++ (closeFence ++ [])) := by
    rw [hdata]
    exact firstSplit_append_self _ _
  have h2 : firstSplit closeFence (c.data ++ (closeFence ++ [])) = some (c.data, []) :=
    firstSplit_closeFence_append c.data [] h
  simp only [extract_code_from_message, h1, h2]

lemma no_escape_in_extracted (content : List Char) :
    containsPat ("\\n".data) (stripChars (replaceEsc content)) = false := by
  cases hcp : containsPat ("\\n".data) (stripChars (replaceEsc content)) with
  | false => rfl
  | true =>
    exfalso
    have hinf := (containsPat_iff_found _ _).mp hcp
    have : containsPat ("\\n".data) (replaceEsc content) = true :=
      (containsPat_iff_found _ _).mpr (hinf.trans (stripChars_within _))
    rw [replaceEsc_no_escape] at this
    exact Bool.false_ne_true this

/-! ## Claims about the Code Extractor -/

/-- C5 (counterexample): the extractor is NOT idempotent on every message.
On `"```python\nX\\n```Y\n```"` the match group is `X\n```Y` after the
escaped newline is unescaped, so the extracted code contains the closing
fence marker; re-wrapping it and extracting again stops at that inner
marker and returns only `"X"`. -/
theorem extractor_idempotence_cex :
    extract_code_from_message "```python\nX\\n```Y\n```" = "X\n```Y"
  ∧ extract_code_from_message
      (wrapFence (extract_code_from_message "```python\nX\\n```Y\n```")) = "X"
  ∧ ("X" : String) ≠ "X\n```Y" := by
  refine ⟨?_, ?_, ?_⟩ <;> decide

/-- C5 (amended): for every message whose extracted code does not contain
the closing fence marker `"\n```"` as a substring, wrapping the extracted
code back into the fence markers and extracting again yields exactly the
extracted code; and extracting any fence-free string (no occurrence of the
opening marker) yields the empty string. -/
theorem extractor_idempotent_amended :
    (∀ msg : String,
        containsPat closeFence (extract_code_from_message msg).data = false →
        extract_code_from_message (wrapFence (extract_code_from_message msg)) =
          extract_code_from_message msg)
  ∧ ∀ s : String, containsPat openFence s.data = false →
      extract_code_from_message s = "" := by
  constructor
  · intro msg hmsg
    rw [extract_wrap _ hmsg]
    rcases extract_shape msg with h | ⟨content, h⟩
    · rw [h]
      rfl
    · rw [h]
      have hy : (String.mk (stripChars (replaceEsc content))).data
          = stripChars (replaceEsc content) := rfl
      rw [hy, replaceEsc_eq_self _ (no_escape_in_extracted content), stripChars_idem]
  · exact fun s h => extract_empty_of_no_openFence s h

/-- Witness for the amended C5 at a concrete message and a concrete
fence-free string. -/
theorem extractor_idempotent_amended_witness :
    extract_code_from_message
        (wrapFence (extract_code_from_message "```python\nprint(1)\n```"))
      = extract_code_from_message "```python\nprint(1)\n```"
  ∧ extract_code_from_message "plain text, no fence" = "" :=
  ⟨extractor_idempotent_amended.1 "```python\nprint(1)\n```" (by decide),
   extractor_idempotent_amended.2 "plain text, no fence" (by decide)⟩

lemma openFence_eq :
    openFence = btChar :: btChar :: btChar ::
      ('p' :: 'y' :: 't' :: 'h' :: 'o' :: 'n' :: '\n' :: []) := by decide

lemma pyTag_split :
    ('p' :: 'y' :: 't' :: 'h' :: 'o' :: 'n' :: '\n' :: ([] : List Char)) =
      "python".data ++ ['\n'] := by decide

/-- A pattern whose ASCII characters before the final newline avoid the
newline, prefixing a tag followed by a newline, forces the tag to equal
the pattern core. -/
lemma tag_prefix_eq (core : List Char) :
    ∀ lang rest : List Char, '\n' ∉ core → '\n' ∉ lang →
      (core ++ ['\n']).isPrefixOf (lang ++ '\n' :: rest) = true → lang = core := by
  induction core with
  | nil =>
    intro lang rest _ hlang h
    cases lang with
    | nil => rfl
    | cons c l' =>
      exfalso
      simp only [List.nil_append, List.cons_append, List.isPrefixOf,
        Bool.and_eq_true, beq_iff_eq] at h
      exact hlang (h.1 ▸ List.mem_cons_self c l')
  | cons a core' ih =>
    intro lang rest hcore hlang h
    cases lang with
    | nil =>
      exfalso
      simp only [List.nil_append, List.cons_append, List.isPrefixOf,
        Bool.and_eq_true, beq_iff_eq] at h
      exact hcore (h.1 ▸ List.mem_cons_self a core')
    | cons c l' =>
      simp only [List.cons_append, List.isPrefixOf, Bool.and_eq_true, beq_iff_eq] at h
      obtain ⟨hac, h2⟩ := h
      have hl' := ih l' rest (fun hm => hcore (List.mem_cons_of_mem _ hm))
        (fun hm => hlang (List.mem_cons_of_mem _ hm)) h2
      rw [hac, hl']

lemma btpat_not_prefix (P R rest : List Char) (hR : ∀ ch ∈ R, ch ≠ btChar) :
    (btChar :: P).isPrefixOf (R ++ '\n' :: rest) = false := by
  cases R with
  | nil =>
    simp [List.isPrefixOf, show (btChar == '\n') = false by decide]
  | cons c l' =>
    have hbc : (btChar == c) = false := by
      rw [beq_eq_false_iff_ne]
      exact fun hh => (hR c (List.mem_cons_self _ _)) hh.symm
    simp [List.isPrefixOf, hbc]

/-- A fenced block whose language tag is not `python` (and whose tag and
body contain no backtick, the tag also no newline) contains no occurrence
of the opening marker `"```python\n"`. -/
lemma no_openFence_other_tag (lang code : List Char)
    (hne : lang ≠ "python".data)
    (hlang : ∀ ch ∈ lang, ch ≠ btChar ∧ ch ≠ '\n')
    (hcode : ∀ ch ∈ code, ch ≠ btChar) :
    containsPat openFence
      (btChar :: btChar :: btChar ::
        (lang ++ '\n' :: (code ++ '\n' :: btChar :: btChar :: btChar :: []))) = false := by
  rw [containsPat, containsPat, containsPat]
  have hpy : ("python".data ++ ['\n']).isPrefixOf
      (lang ++ '\n' :: (code ++ '\n' :: btChar :: btChar :: btChar :: [])) = false := by
    cases hh : ("python".data ++ ['\n']).isPrefixOf
        (lang ++ '\n' :: (code ++ '\n' :: btChar :: btChar :: btChar :: [])) with
    | false => rfl
    | true =>
      exact absurd (tag_prefix_eq "python".data lang _ (by decide)
        (fun hm => (hlang _ hm).2 rfl) hh) hne
  have h1 : openFence.isPrefixOf (btChar :: btChar :: btChar ::
      (lang ++ '\n' :: (code ++ '\n' :: btChar :: btChar :: btChar :: []))) = false := by
    rw [openFence_eq]
    simp only [List.isPrefixOf, beq_self_eq_true, Bool.true_and]
    rw [show ('p' :: 'y' :: 't' :: 'h' :: 'o' :: 'n' :: '\n' :: ([] : List Char)).isPrefixOf
          (lang ++ '\n' :: (code ++ '\n' :: btChar :: btChar :: btChar :: []))
        = ("python".data ++ ['\n']).isPrefixOf
          (lang ++ '\n' :: (code ++ '\n' :: btChar :: btChar :: btChar :: []))
      from by rw [← pyTag_split]]
    exact hpy
  have h2 : openFence.isPrefixOf (btChar :: btChar ::
      (lang ++ '\n' :: (code ++ '\n' :: btChar :: btChar :: btChar :: []))) = false := by
    rw [openFence_eq]
    simp only [List.isPrefixOf, beq_self_eq_true, Bool.true_and]
    exact btpat_not_prefix _ lang _ fun ch hm => (hlang ch hm).1
  have h3 : openFence.isPrefixOf (btChar ::
      (lang ++ '\n' :: (code ++ '\n' :: btChar :: btChar :: btChar :: []))) = false := by
    rw [openFence_eq]
    simp only [List.isPrefixOf, beq_self_eq_true, Bool.true_and]
    exact btpat_not_prefix _ lang _ fun ch hm => (hlang ch hm).1
  have h4 : containsPat openFence
      (lang ++ '\n' :: (code ++ '\n' :: btChar :: btChar :: btChar :: [])) = false := by
    rw [openFence_eq,
      containsPat_cons_pat_append btChar _ lang _ (fun ch hm => (hlang ch hm).1),
      containsPat]
    have h5 : (btChar :: btChar :: btChar ::
        ('p' :: 'y' :: 't' :: 'h' :: 'o' :: 'n' :: '\n' :: [])).isPrefixOf
        ('\n' :: (code ++ '\n' :: btChar :: btChar :: btChar :: [])) = false := by
      simp [List.isPrefixOf, show (btChar == '\n') = false by decide]
    rw [h5, containsPat_cons_pat_append btChar _ code _ hcode]
    decide
  rw [h1, h2, h3, h4]
  rfl

/-- C6: the extractor returns `""` on any input containing no occurrence
of the opening marker `"```python\n"`; it returns `""` on a fenced block
whose language tag is any value other than `python` (tag and body free of
stray backticks, the tag also of newlines); and when a recognized fence is
present, the block extracted is the first one: for any prefix free of
backticks (hence containing no fence), the first fenced block's content is
what is returned (unescaped and stripped). -/
theorem extractor_no_fence_empty_and_first_block :
    (∀ s : String, containsPat openFence s.data = false →
        extract_code_from_message s = "")
  ∧ (∀ lang code : String, lang ≠ "python" →
        (∀ ch ∈ lang.data, ch ≠ btChar ∧ ch ≠ '\n') →
        (∀ ch ∈ code.data, ch ≠ btChar) →
        extract_code_from_message ("```" ++ lang ++ "\n" ++ code ++ "\n```") = "")
  ∧ (∀ pre c post : String,
        (∀ ch ∈ pre.data, ch ≠ btChar) →
        containsPat closeFence c.data = false →
        extract_code_from_message (pre ++ "```python\n" ++ c ++ "\n```" ++ post) =
          String.mk (stripChars (replaceEsc c.data))) := by
  refine ⟨fun s h => extract_empty_of_no_openFence s h, ?_, ?_⟩
  · intro lang code hne hlang hcode
    apply extract_empty_of_no_openFence
    have hdata : ("```" ++ lang ++ "\n" ++ code ++ "\n```").data
        = btChar :: btChar :: btChar ::
          (lang.data ++ '\n' :: (code.data ++ '\n' :: btChar :: btChar :: btChar :: [])) := by
      simp only [String.data_append, List.append_assoc, List.cons_append,
        List.nil_append]
      rfl
    rw [hdata]
    apply no_openFence_other_tag lang.data code.data _ hlang hcode
    intro hd
    apply hne
    have : String.mk lang.data = String.mk "python".data := by rw [hd]
    exact this
  · intro pre c post hpre hc
    have hdata : (pre ++ "```python\n" ++ c ++ "\n```" ++ post).data
        = pre.data ++ (openFence ++ (c.data ++ (closeFence ++ post.data))) := by
      simp only [String.data_append, List.append_assoc]
      rfl
    have h1 : firstSplit openFence (pre ++ "```python\n" ++ c ++ "\n```" ++ post).data
        = some (pre.data, c.data ++ (closeFence ++ post.data)) := by
      rw [hdata, openFence_eq]
      exact firstSplit_cons_pat_append btChar _ pre.data _ hpre
    have h2 : firstSplit closeFence (c.data ++ (closeFence ++ post.data))
        = some (c.data, post.data) := firstSplit_closeFence_append c.data post.data hc
    simp only [extract_code_from_message, h1, h2]

/-- Witness for C6 at concrete inputs: a fence-free string, a
`js`-tagged fence, and an embedded first `python` fence. -/
theorem extractor_no_fence_empty_witness :
    extract_code_from_message "just words" = ""
  ∧ extract_code_from_message ("```" ++ "js" ++ "\n" ++ "var x = 1" ++ "\n```") = ""
  ∧ extract_code_from_message ("intro: " ++ "```python\n" ++ " z = 1 " ++ "\n```" ++ " outro")
      = String.mk (stripChars (replaceEsc (" z = 1 ").data)) :=
  ⟨extractor_no_fence_empty_and_first_block.1 "just words" (by decide),
   extractor_no_fence_empty_and_first_block.2.1 "js" "var x = 1" (by decide) (by decide)
     (by decide),
   extractor_no_fence_empty_and_first_block.2.2 "intro: " " z = 1 " " outro" (by decide)
     (by decide)⟩

/-! ## Claims about the Artifact Selector -/

lemma foldl_max_mem (f : FileEntry) (fs : List FileEntry) :
    fs.foldl (fun acc g => if g.mtime > acc.mtime then g else acc) f = f
      ∨ fs.foldl (fun acc g => if g.mtime > acc.mtime then g else acc) f ∈ fs := by
  induction fs generalizing f with
  | nil => exact Or.inl rfl
  | cons g fs ih =>
    simp only [List.foldl_cons]
    rcases ih (if g.mtime > f.mtime then g else f) with h | h
    · rw [h]
      split
      · exact Or.inr (List.mem_cons_self _ _)
      · exact Or.inl rfl
    · exact Or.inr (List.mem_cons_of_mem _ h)

lemma foldl_max_ge (f : FileEntry) (fs : List FileEntry) :
    f.mtime ≤ (fs.foldl (fun acc g => if g.mtime > acc.mtime then g else acc) f).mtime
  ∧ ∀ g ∈ fs,
      g.mtime ≤ (fs.foldl (fun acc g => if g.mtime > acc.mtime then g else acc) f).mtime := by
  induction fs generalizing f with
  | nil => exact ⟨le_refl _, fun g hg => absurd hg (List.not_mem_nil g)⟩
  | cons g fs ih =>
    simp only [List.foldl_cons]
    have ih' := ih (if g.mtime > f.mtime then g else f)
    constructor
    · refine le_trans ?_ ih'.1
      split
      · next h => exact le_of_lt h
      · exact le_refl _
    · intro x hx
      rcases List.mem_cons.mp hx with rfl | hx'
      · refine le_trans ?_ ih'.1
        split
        · exact le_refl _
        · next h => exact Nat.le_of_not_lt h
      · exact ih'.2 x hx'

/-- C7: whenever the Artifact Selector returns a file it is one of the
extension-matching entries and carries a maximal modification timestamp
among them; a non-empty match set always yields a file; the selector
returns `none` on an empty match set or a missing directory; and on
timestamps `[1, 2, 3]` it returns the file with timestamp `3`. -/
theorem artifact_selector_spec :
    (∀ entries : List FileEntry, ∀ f, selectArtifact (some entries) = some f →
        f ∈ pyFiles entries ∧ ∀ g ∈ pyFiles entries, g.mtime ≤ f.mtime)
  ∧ (∀ entries : List FileEntry, pyFiles entries ≠ [] →
        ∃ f, selectArtifact (some entries) = some f)
  ∧ (∀ entries : List FileEntry, pyFiles entries = [] →
        selectArtifact (some entries) = none)
  ∧ selectArtifact none = none
  ∧ selectArtifact (some [⟨"a.py", 1⟩, ⟨"b.py", 2⟩, ⟨"c.py", 3⟩])
      = some ⟨"c.py", 3⟩ := by
  refine ⟨?_, ?_, ?_, rfl, by decide⟩
  · intro entries f hf
    rw [selectArtifact] at hf
    cases hpy : pyFiles entries with
    | nil => rw [hpy] at hf; exact absurd hf (by rw [maxByMtime]; exact Option.noConfusion)
    | cons h t =>
      rw [hpy, maxByMtime] at hf
      have hfe : t.foldl (fun acc g => if g.mtime > acc.mtime then g else acc) h = f :=
        Option.some.inj hf
      constructor
      · rw [← hfe]
        rcases foldl_max_mem h t with h1 | h1
        · rw [h1]; exact List.mem_cons_self _ _
        · exact List.mem_cons_of_mem _ h1
      · intro g hg
        rw [← hfe]
        rcases List.mem_cons.mp hg with rfl | hg'
        · exact (foldl_max_ge g t).1
        · exact (foldl_max_ge h t).2 g hg'
  · intro entries hne
    rw [selectArtifact]
    cases hpy : pyFiles entries with
    | nil => exact absurd hpy hne
    | cons h t => exact ⟨_, by rw [maxByMtime]⟩
  · intro entries hpy
    rw [selectArtifact, hpy, maxByMtime]

/-- Witness for C7 at the concrete three-file directory. -/
theorem artifact_selector_spec_witness :
    (⟨"c.py", 3⟩ : FileEntry) ∈ pyFiles [⟨"a.py", 1⟩, ⟨"b.py", 2⟩, ⟨"c.py", 3⟩]
  ∧ ∀ g ∈ pyFiles [⟨"a.py", 1⟩, ⟨"b.py", 2⟩, ⟨"c.py", 3⟩],
      g.mtime ≤ (⟨"c.py", 3⟩ : FileEntry).mtime :=
  artifact_selector_spec.1 [⟨"a.py", 1⟩, ⟨"b.py", 2⟩, ⟨"c.py", 3⟩] ⟨"c.py", 3⟩ (by decide)

/-! ## Claims about the Reviewer's suggestion extraction -/

lemma foldl_append_filter (L : List (List Char)) (acc : List String) :
    L.foldl
        (fun suggestions line =>
          let line := String.mk (stripChars line)
          if isSuggestionLine line then suggestions ++ [line] else suggestions)
        acc
      = acc ++ (L.map fun l => String.mk (stripChars l)).filter isSuggestionLine := by
  induction L generalizing acc with
  | nil => simp
  | cons l L ih =>
    simp only [List.foldl_cons, List.map_cons, List.filter_cons]
    by_cases h : isSuggestionLine (String.mk (stripChars l))
    · simp [h, ih, List.append_assoc]
    · simp [h, ih]

/-- C8 (counterexample): a suggestion is NOT always a verbatim line of
the review response: a qualifying line with leading whitespace is
collected in stripped form and is not among the response's lines. -/
theorem reviewer_suggestions_cex :
    extract_suggestions "  consider x" = ["consider x"]
  ∧ ¬ ("consider x" ∈ (splitLines ("  consider x").data).map String.mk) := by
  refine ⟨?_, ?_⟩ <;> decide

/-- C8 (amended): the suggestions list consists of exactly the stripped
forms of those response lines whose lowercase form contains one of the
fixed keywords as a substring, in the response's line order and with
duplicates included — each qualifying line appears stripped of leading
and trailing whitespace, not verbatim. -/
theorem reviewer_suggestions_amended (review : String) :
    extract_suggestions review =
      ((splitLines review.data).map fun l => String.mk (stripChars l)).filter
        isSuggestionLine := by
  rw [extract_suggestions, foldl_append_filter]
  rfl

/-! ## Claims about the Metrics Recorder -/

lemma applyResults_counts (l : List Bool) (m : PerformanceMonitor) :
    (applyResults l m).task_count = m.task_count + l.length
  ∧ (applyResults l m).success_count = m.success_count + l.count true := by
  induction l generalizing m with
  | nil => exact ⟨rfl, rfl⟩
  | cons b l ih =>
    obtain ⟨h1, h2⟩ := ih (m.record_task_result b)
    rw [applyResults]
    constructor
    · rw [h1]
      simp only [PerformanceMonitor.record_task_result, List.length_cons]
      omega
    · rw [h2]
      cases b
      all_goals simp [PerformanceMonitor.record_task_result, List.count_cons]
      all_goals omega

/-- C9: after exactly three recorded task results of which two are
successes, the `success_rate` of `get_metrics` is `200/3`, which rounds
to `66.7` at one decimal place (the recorder computes
`success_count / task_count * 100`). -/
theorem success_rate_two_of_three (l : List Bool) (h3 : l.length = 3)
    (h2 : l.count true = 2) :
    round1 ((applyResults l PerformanceMonitor.init).get_metrics.success_rate)
      = 667 / 10 := by
  obtain ⟨ht, hs⟩ := applyResults_counts l PerformanceMonitor.init
  rw [h3] at ht
  rw [h2] at hs
  show round1 ((applyResults l PerformanceMonitor.init).success_rate) = 667 / 10
  rw [PerformanceMonitor.success_rate, ht, hs]
  have hq : ((PerformanceMonitor.init.success_count + 2 : ℕ) : ℚ)
      / ((PerformanceMonitor.init.task_count + 3 : ℕ) : ℚ) * 100 = 200 / 3 := by
    norm_num [PerformanceMonitor.init]
  rw [if_pos (by norm_num [PerformanceMonitor.init]), hq, round1]
  have : round ((200 : ℚ) / 3 * 10) = 667 := by
    rw [round_eq]
    have : (200 : ℚ) / 3 * 10 + 1 / 2 = 4003 / 6 := by norm_num
    rw [this, Int.floor_eq_iff]
    norm_num
  rw [this]
  norm_num

/-- Witness for C9 at the order `[success, success, failure]`. -/
theorem success_rate_two_of_three_witness :
    round1 ((applyResults [true, true, false]
        PerformanceMonitor.init).get_metrics.success_rate) = 667 / 10 :=
  success_rate_two_of_three [true, true, false] rfl rfl

lemma applyOps_balance (ops : List MonitorOp) (m : PerformanceMonitor)
    (h : m.task_count = m.success_count + m.failure_count) :
    (applyOps ops m).task_count
      = (applyOps ops m).success_count + (applyOps ops m).failure_count := by
  induction ops generalizing m with
  | nil => exact h
  | cons op ops ih =>
    cases op with
    | taskResult s =>
      rw [applyOps]
      apply ih
      cases s <;> simp [PerformanceMonitor.record_task_result] <;> omega
    | metric n v =>
      rw [applyOps]
      exact ih _ h

lemma success_rate_bounds (m : PerformanceMonitor)
    (h : m.task_count = m.success_count + m.failure_count) :
    0 ≤ m.success_rate ∧ m.success_rate ≤ 100 := by
  rw [PerformanceMonitor.success_rate]
  split
  · next ht =>
    have hle : (m.success_count : ℚ) ≤ (m.task_count : ℚ) := by
      exact_mod_cast (by omega : m.success_count ≤ m.task_count)
    have htpos : (0 : ℚ) < (m.task_count : ℚ) := by exact_mod_cast ht
    constructor
    · positivity
    · have hdiv : (m.success_count : ℚ) / (m.task_count : ℚ) ≤ 1 := by
        rw [div_le_one htpos]
        exact hle
      calc (m.success_count : ℚ) / (m.task_count : ℚ) * 100
          ≤ 1 * 100 := mul_le_mul_of_nonneg_right hdiv (by norm_num)
        _ = 100 := by norm_num
  · exact ⟨le_refl 0, by norm_num⟩

/-- C10: starting from a fresh monitor, any sequence of
`record_task_result` / `record_metric` calls maintains
`task_count = success_count + failure_count`; consequently the
`success_rate` always lies in `[0, 100]`, and it is `0` when
`task_count = 0` (the division is guarded). -/
theorem monitor_counter_invariant (ops : List MonitorOp) :
    (applyOps ops PerformanceMonitor.init).task_count
      = (applyOps ops PerformanceMonitor.init).success_count
        + (applyOps ops PerformanceMonitor.init).failure_count
  ∧ 0 ≤ (applyOps ops PerformanceMonitor.init).success_rate
  ∧ (applyOps ops PerformanceMonitor.init).success_rate ≤ 100
  ∧ ((applyOps ops PerformanceMonitor.init).task_count = 0 →
      (applyOps ops PerformanceMonitor.init).success_rate = 0) := by
  have hbal := applyOps_balance ops PerformanceMonitor.init rfl
  have hb := success_rate_bounds _ hbal
  refine ⟨hbal, hb.1, hb.2, fun h0 => ?_⟩
  rw [PerformanceMonitor.success_rate, h0]
  simp

/-- Witness for C10 at a concrete call sequence (and the empty sequence
for the guarded-division clause). -/
theorem monitor_counter_invariant_witness :
    (applyOps [MonitorOp.taskResult true, MonitorOp.metric "last_task"
        (MetricValue.str "t"), MonitorOp.taskResult false]
        PerformanceMonitor.init).task_count
      = (applyOps [MonitorOp.taskResult true, MonitorOp.metric "last_task"
          (MetricValue.str "t"), MonitorOp.taskResult false]
          PerformanceMonitor.init).success_count
        + (applyOps [MonitorOp.taskResult true, MonitorOp.metric "last_task"
            (MetricValue.str "t"), MonitorOp.taskResult false]
            PerformanceMonitor.init).failure_count
  ∧ (applyOps [] PerformanceMonitor.init).success_rate = 0 :=
  ⟨(monitor_counter_invariant [MonitorOp.taskResult true, MonitorOp.metric "last_task"
      (MetricValue.str "t"), MonitorOp.taskResult false]).1,
   (monitor_counter_invariant []).2.2.2 rfl⟩

/-! ## Claims about the Task Orchestrator

`plan_and_execute` is a total Lean function into `OutcomeRecord`, so every
invocation returns exactly one record and none raises past the boundary;
the theorems below establish the contents of that record. -/

/-- C1: whenever an exception with message `e` escapes the orchestration
steps (`planAttempt` errors), the single returned record has
`status = "failed"`, carries the original message `e` in its `error`
field — for every environment, in particular those whose debug dispatch
itself fails, so a debug failure never masks the original error — and a
present `debug_analysis` key; the monitor records the failure
(`task_count` and `failure_count` incremented) and the returned metrics
snapshot shows the incremented `total_tasks`. -/
theorem orchestrator_failure_record (env : Env) (mon : PerformanceMonitor)
    (task e : String) (hfail : planAttempt env task = .error e) :
    (plan_and_execute env mon task).1.status = "failed"
  ∧ (plan_and_execute env mon task).1.error = some e
  ∧ (∃ d, (plan_and_execute env mon task).1.debug_analysis = some d)
  ∧ (plan_and_execute env mon task).2.task_count = mon.task_count + 1
  ∧ (plan_and_execute env mon task).2.failure_count = mon.failure_count + 1
  ∧ (plan_and_execute env mon task).1.metrics.total_tasks = mon.task_count + 1 := by
  simp only [plan_and_execute, hfail]
  simp [PerformanceMonitor.record_task_result, PerformanceMonitor.record_metric,
    PerformanceMonitor.get_metrics]

/-- Environment for the C1 witness: the dialogue dispatch raises, and the
debugger dispatch itself also fails (exercising the non-masking clause). -/
def envChatFails : Env :=
  { chat := .error "boom"
    codingDir := none
    write := fun _ _ => .ok ()
    createTest := fun _ _ =>
      .ok { success := true, test_file := some "test_t.py", error := none }
    runTests := fun _ =>
      .ok { success := true, exit_code := some 0, test_file := some "test_t.py",
            error := none }
    review := fun _ _ _ =>
      .ok { success := true, review := none, suggestions := none, error := none }
    debug := fun _ => .error "debugger down" }

/-- Witness for C1 on a failing dialogue dispatch with a failing
debugger. -/
theorem orchestrator_failure_record_witness :
    (plan_and_execute envChatFails PerformanceMonitor.init "task").1.status = "failed"
  ∧ (plan_and_execute envChatFails PerformanceMonitor.init "task").1.error = some "boom"
  ∧ (plan_and_execute envChatFails PerformanceMonitor.init "task").2.failure_count = 1 := by
  have h := orchestrator_failure_record envChatFails PerformanceMonitor.init "task" "boom" rfl
  exact ⟨h.1, h.2.1, h.2.2.2.2.1⟩

/-- C2: when the dialogue dispatch returns and the transcript's last
message does not contain `TERMINATE` (including an absent or empty last
message), the returned record has `status = "ongoing"` (never `"failed"`)
and both `test_results` and `review_results` are `None`. -/
theorem orchestrator_ongoing (env : Env) (mon : PerformanceMonitor) (task : String)
    (hist : Option (List Message)) (hchat : env.chat = .ok hist)
    (hterm : ∀ m, lastMessageOf hist = some m → containsStr "TERMINATE" m = false) :
    (plan_and_execute env mon task).1.status = "ongoing"
  ∧ (plan_and_execute env mon task).1.test_results = some none
  ∧ (plan_and_execute env mon task).1.review_results = some none := by
  have hsucc : successOf (lastMessageOf hist) = false := by
    cases hl : lastMessageOf hist with
    | none => rfl
    | some m => simp [successOf, hterm m hl]
  have hplan : planAttempt env task = .ok (lastMessageOf hist, false, none, none) := by
    simp only [planAttempt, hchat, hsucc, innerBlock, Bool.false_and,
      Bool.false_eq_true, if_false]
  simp [plan_and_execute, hplan]

/-- Environment for the C2 witness: the dialogue returns a transcript
whose last message lacks the sentinel. -/
def envOngoing : Env :=
  { chat := .ok (some [{ content := some "still working on it" }])
    codingDir := some [{ name := "foo.py", mtime := 7 }]
    write := fun _ _ => .ok ()
    createTest := fun _ _ =>
      .ok { success := true, test_file := some "test_foo.py", error := none }
    runTests := fun _ =>
      .ok { success := true, exit_code := some 0, test_file := some "test_foo.py",
            error := none }
    review := fun _ _ _ =>
      .ok { success := true, review := none, suggestions := none, error := none }
    debug := fun _ => .ok { success := true, analysis := some "a" } }

/-- Witness for C2 on a sentinel-free transcript. -/
theorem orchestrator_ongoing_witness :
    (plan_and_execute envOngoing PerformanceMonitor.init "task").1.status = "ongoing"
  ∧ (plan_and_execute envOngoing PerformanceMonitor.init "task").1.test_results
      = some none := by
  have h := orchestrator_ongoing envOngoing PerformanceMonitor.init "task"
    (some [{ content := some "still working on it" }]) rfl ?_
  · exact ⟨h.1, h.2.1⟩
  · intro m hm
    have h2 : (some "still working on it" : Option String) = some m := hm
    rw [← Option.some.inj h2]
    decide

/-- C3: when the last message contains `TERMINATE` and the working
directory exists but holds no extension-matching file, the returned
record has `status = "completed"` with `test_results = None`, and no
artifact write is consulted (the outcome is the same for every write
behaviour). -/
theorem orchestrator_completed_no_artifact (env : Env) (mon : PerformanceMonitor)
    (task : String) (hist : Option (List Message)) (m : String)
    (entries : List FileEntry)
    (hchat : env.chat = .ok hist)
    (hlast : lastMessageOf hist = some m)
    (hterm : containsStr "TERMINATE" m = true)
    (hdir : env.codingDir = some entries)
    (hnone : pyFiles entries = []) :
    (plan_and_execute env mon task).1.status = "completed"
  ∧ (plan_and_execute env mon task).1.test_results = some none
  ∧ ∀ w, plan_and_execute { env with write := w } mon task
      = plan_and_execute env mon task := by
  have hne : (m == "") = false := by
    cases hb : (m == "") with
    | false => rfl
    | true =>
      exfalso
      have hm : m = "" := by simpa using hb
      rw [hm] at hterm
      exact absurd hterm (by decide)
  have hsucc : successOf (lastMessageOf hist) = true := by
    rw [hlast]
    simp [successOf, hne, hterm]
  have hsel : selectArtifact (some entries) = none := by
    rw [selectArtifact, hnone, maxByMtime]
  have hplan : planAttempt env task = .ok (lastMessageOf hist, true, none, none) := by
    simp only [planAttempt, hchat, hsucc, innerBlock, hdir, hsel, Option.isSome_some,
      Bool.true_and, if_true]
  have hplan' : ∀ w, planAttempt { env with write := w } task
      = .ok (lastMessageOf hist, true, none, none) := by
    intro w
    simp only [planAttempt, hchat, hsucc, innerBlock, hdir, hsel, Option.isSome_some,
      Bool.true_and, if_true]
  refine ⟨?_, ?_, ?_⟩
  · simp [plan_and_execute, hplan]
  · simp [plan_and_execute, hplan]
  · intro w
    simp only [plan_and_execute, hplan, hplan' w]

/-- Environment for the C3 witness: sentinel present, working directory
exists with no matching file. -/
def envNoArtifact : Env :=
  { chat := .ok (some [{ content := some "all done TERMINATE" }])
    codingDir := some [{ name := "notes.txt", mtime := 5 }]
    write := fun _ _ => .ok ()
    createTest := fun _ _ =>
      .ok { success := true, test_file := some "test_foo.py", error := none }
    runTests := fun _ =>
      .ok { success := true, exit_code := some 0, test_file := some "test_foo.py",
            error := none }
    review := fun _ _ _ =>
      .ok { success := true, review := none, suggestions := none, error := none }
    debug := fun _ => .ok { success := true, analysis := some "a" } }

/-- Witness for C3 on a matching-file-free working directory. -/
theorem orchestrator_completed_no_artifact_witness :
    (plan_and_execute envNoArtifact PerformanceMonitor.init "task").1.status = "completed"
  ∧ (plan_and_execute envNoArtifact PerformanceMonitor.init "task").1.test_results
      = some none := by
  have h := orchestrator_completed_no_artifact envNoArtifact PerformanceMonitor.init
    "task" (some [{ content := some "all done TERMINATE" }]) "all done TERMINATE"
    [{ name := "notes.txt", mtime := 5 }] rfl rfl (by decide) rfl (by decide)
  exact ⟨h.1, h.2.1⟩

/-- C4: in a completed cycle whose test step reports failure (the
test-step result — covering `run_tests` raising, reporting non-success or
test-file creation failing — has `success` false), the returned record's
`test_results` has `success = false` and carries a `debug_analysis` key
attached from the Debugger dispatch, while the overall `status` remains
`"completed"` — a test failure never fails the task. -/
theorem orchestrator_test_failure_completed (env : Env) (mon : PerformanceMonitor)
    (task : String) (hist : Option (List Message)) (m : String)
    (entries : List FileEntry) (latest : FileEntry)
    (hchat : env.chat = .ok hist)
    (hlast : lastMessageOf hist = some m)
    (hterm : containsStr "TERMINATE" m = true)
    (hdir : env.codingDir = some entries)
    (hsel : maxByMtime (pyFiles entries) = some latest)
    (hcode : extract_code_from_message m ≠ "")
    (hwrite : env.write latest.name (extract_code_from_message m) = .ok ())
    (hfail : (run_tests_step env (extract_code_from_message m) latest.name).success
      = false) :
    (plan_and_execute env mon task).1.status = "completed"
  ∧ ∃ tr : TestRes,
      (plan_and_execute env mon task).1.test_results = some (some tr)
    ∧ tr.success = false
    ∧ tr.debug_analysis ≠ none := by
  have hne : (m == "") = false := by
    cases hb : (m == "") with
    | false => rfl
    | true =>
      exfalso
      have hm : m = "" := by simpa using hb
      rw [hm] at hterm
      exact absurd hterm (by decide)
  have hsucc : successOf (lastMessageOf hist) = true := by
    rw [hlast]
    simp [successOf, hne, hterm]
  have hsel' : selectArtifact (some entries) = some latest := by
    rw [selectArtifact, hsel]
  have hinner : innerBlock env task true (lastMessageOf hist)
      = .ok (some
          { run_tests_step env (extract_code_from_message m) latest.name with
            debug_analysis := some (handle_error env
              ((run_tests_step env (extract_code_from_message m) latest.name).error.getD
                "Test failure")).analysis },
        some (review_code_step env (extract_code_from_message m) task latest.name)) := by
    rw [innerBlock]
    simp only [hdir, hsel', Option.isSome_some, Bool.true_and, if_true, hlast,
      Option.getD_some]
    rw [if_pos hcode, hwrite]
    simp only [hfail, Bool.not_false, if_true]
  have hplan : planAttempt env task
      = .ok (lastMessageOf hist, true,
          some { run_tests_step env (extract_code_from_message m) latest.name with
                 debug_analysis := some (handle_error env
                   ((run_tests_step env
                     (extract_code_from_message m) latest.name).error.getD
                       "Test failure")).analysis },
          some (review_code_step env (extract_code_from_message m) task latest.name)) := by
    simp only [planAttempt, hchat, hsucc, hinner]
  refine ⟨by simp [plan_and_execute, hplan],
    ⟨{ run_tests_step env (extract_code_from_message m) latest.name with
       debug_analysis := some (handle_error env
         ((run_tests_step env (extract_code_from_message m) latest.name).error.getD
           "Test failure")).analysis }, ?_, ?_, ?_⟩⟩
  · simp [plan_and_execute, hplan]
  · exact hfail
  · intro hcontra
    exact Option.noConfusion hcontra

/-- Environment for the C4 witness: completed dialogue with a fenced
code block, one artifact file, and a test run reporting failure. -/
def envTestFail : Env :=
  { chat := .ok (some
      [{ content := some "done TERMINATE\n```python\nprint(1)\n```" }])
    codingDir := some [{ name := "foo.py", mtime := 7 }]
    write := fun _ _ => .ok ()
    createTest := fun _ _ =>
      .ok { success := true, test_file := some "test_foo.py", error := none }
    runTests := fun _ =>
      .ok { success := false, exit_code := some 1, test_file := some "test_foo.py",
            error := none }
    review := fun _ _ _ =>
      .ok { success := true, review := some "fine", suggestions := some [],
            error := none }
    debug := fun _ => .ok { success := true, analysis := some "assertion failed" } }

/-- Witness for C4 on a failing test run inside a completed cycle. -/
theorem orchestrator_test_failure_completed_witness :
    (plan_and_execute envTestFail PerformanceMonitor.init "task").1.status = "completed"
  ∧ ∃ tr : TestRes,
      (plan_and_execute envTestFail PerformanceMonitor.init "task").1.test_results
        = some (some tr)
    ∧ tr.success = false
    ∧ tr.debug_analysis ≠ none :=
  orchestrator_test_failure_completed envTestFail PerformanceMonitor.init "task"
    (some [{ content := some "done TERMINATE\n```python\nprint(1)\n```" }])
    "done TERMINATE\n```python\nprint(1)\n```"
    [{ name := "foo.py", mtime := 7 }] { name := "foo.py", mtime := 7 }
    rfl rfl (by decide) rfl (by decide) (by decide) rfl (by decide)

end AutogenDev
